import Mathlib

/-!
# Verification of the connectcare webhook connector core

A shallow embedding, in Lean 4, of the event-processing core of the
`connectcare` integration connector: canonical events and their
content-addressed ids (`src/pipeline/event.rs`), the HMAC-SHA256 webhook
validator (`src/sources/webhook/hmac.rs`), dotted-path extraction
(`src/sources/webhook/types.rs`), the Jira webhook handler and its static
event table (`src/sources/jira/`), the CEL filter and Handlebars mapper
processors (`src/pipeline/processors/`), and the pipeline executor
(`src/pipeline/executor.rs`).

Modelling conventions:
* Byte strings are `List Nat` (each entry < 256).  Rust `String`s are Lean
  `String`s; `str.as_bytes()` is modelled as the list of character codes
  (`strBytes`), which coincides with UTF-8 for the ASCII data the connector
  handles.
* The external `sha2`/`hmac` crates are embedded as a concrete executable
  SHA-256 / HMAC-SHA256 over byte lists, following FIPS 180-4 / RFC 2104.
* The external `serde_json` parser, the Handlebars text engine and the
  compiled CEL program are opaque collaborators of the core: functions the
  embedded code receives as parameters.
* Fallible Rust code returning `Result<T, AppError>` becomes
  `Except AppError T`.
-/

set_option maxRecDepth 100000

/-! ## Bytes and 32-bit words -/

/-- Byte string of a Rust `String` (`as_bytes()`), modelled as the sequence of
character codes — identical to UTF-8 on the ASCII strings the connector uses. -/
def strBytes (s : String) : List Nat := s.data.map Char.toNat

/-- Truncation to a 32-bit word. -/
def w32 (n : Nat) : Nat := n % 4294967296

/-- 32-bit right rotation. -/
def rotr32 (k x : Nat) : Nat := w32 ((x >>> k) ||| (x <<< (32 - k)))

/-- Big-endian bytes of a 32-bit word. -/
def be32 (n : Nat) : List Nat :=
  [n / 16777216 % 256, n / 65536 % 256, n / 256 % 256, n % 256]

/-- Big-endian bytes of a 64-bit word. -/
def be64 (n : Nat) : List Nat :=
  be32 (n / 4294967296 % 4294967296) ++ be32 (n % 4294967296)

/-! ## SHA-256 (FIPS 180-4), the primitive behind the `sha2` crate -/

/-- SHA-256 message padding: `0x80`, zeros to 56 mod 64, then the bit length
as a big-endian 64-bit integer. -/
def sha256Pad (msg : List Nat) : List Nat :=
  msg ++ 128 :: List.replicate ((119 - msg.length % 64) % 64) 0
      ++ be64 (8 * msg.length)

/-- Group a byte list into big-endian 32-bit words (4 bytes each). -/
def beWords : List Nat → List Nat
  | a :: b :: c :: d :: rest => (((a * 256 + b) * 256 + c) * 256 + d) :: beWords rest
  | _ => []

/-- Split a list into 64-element chunks; `fuel` bounds the recursion and is
instantiated with the list length. -/
def chunks64 : Nat → List Nat → List (List Nat)
  | 0, _ => []
  | _ + 1, [] => []
  | fuel + 1, l => l.take 64 :: chunks64 fuel (l.drop 64)

def sigma0 (x : Nat) : Nat := (rotr32 7 x) ^^^ (rotr32 18 x) ^^^ (x >>> 3)

def sigma1 (x : Nat) : Nat := (rotr32 17 x) ^^^ (rotr32 19 x) ^^^ (x >>> 10)

/-- Message-schedule extension: prepends `fuel` new words to the reversed
schedule `rev` and returns the schedule in order. -/
def extendSchedule : Nat → List Nat → List Nat
  | 0, rev => rev.reverse
  | fuel + 1, rev =>
    extendSchedule fuel
      (w32 (sigma1 (rev.getD 1 0) + rev.getD 6 0 + sigma0 (rev.getD 14 0)
        + rev.getD 15 0) :: rev)

/-- The 64-entry message schedule of one 64-byte chunk. -/
def schedule (chunk : List Nat) : List Nat :=
  extendSchedule 48 (beWords chunk).reverse

/-- SHA-256 working state: eight 32-bit words. -/
structure H8 where
  a : Nat
  b : Nat
  c : Nat
  d : Nat
  e : Nat
  f : Nat
  g : Nat
  h : Nat
deriving Repr, DecidableEq

/-- The SHA-256 initial hash value. -/
def sha256Init : H8 :=
  ⟨1779033703, 3144134277, 1013904242, 2773480762,
   1359893119, 2600822924, 528734635, 1541459225⟩

/-- The 64 SHA-256 round constants. -/
def kConst : List Nat :=
  [1116352408, 1899447441, 3049323471, 3921009573, 961987163, 1508970993,
   2453635748, 2870763221, 3624381080, 310598401, 607225278, 1426881987,
   1925078388, 2162078206, 2614888103, 3248222580, 3835390401, 4022224774,
   264347078, 604807628, 770255983, 1249150122, 1555081692, 1996064986,
   2554220882, 2821834349, 2952996808, 3210313671, 3336571891, 3584528711,
   113926993, 338241895, 666307205, 773529912, 1294757372, 1396182291,
   1695183700, 1986661051, 2177026350, 2456956037, 2730485921, 2820302411,
   3259730800, 3345764771, 3516065817, 3600352804, 4094571909, 275423344,
   430227734, 506948616, 659060556, 883997877, 958139571, 1322822218,
   1537002063, 1747873779, 1955562222, 2024104815, 2227730452, 2361852424,
   2428436474, 2756734187, 3204031479, 3329325298]

def bigSigma0 (x : Nat) : Nat := (rotr32 2 x) ^^^ (rotr32 13 x) ^^^ (rotr32 22 x)

def bigSigma1 (x : Nat) : Nat := (rotr32 6 x) ^^^ (rotr32 11 x) ^^^ (rotr32 25 x)

def chF (x y z : Nat) : Nat := (x &&& y) ^^^ ((x ^^^ 4294967295) &&& z)

def majF (x y z : Nat) : Nat := (x &&& y) ^^^ (x &&& z) ^^^ (y &&& z)

/-- One SHA-256 compression round: `kw` pairs the round constant with the
schedule word. -/
def sha256Round (st : H8) (kw : Nat × Nat) : H8 :=
  let t1 := w32 (st.h + bigSigma1 st.e + chF st.e st.f st.g + kw.1 + kw.2)
  let t2 := w32 (bigSigma0 st.a + majF st.a st.b st.c)
  ⟨w32 (t1 + t2), st.a, st.b, st.c, w32 (st.d + t1), st.e, st.f, st.g⟩

/-- Compress one 64-byte chunk into the running state. -/
def compressChunk (st : H8) (chunk : List Nat) : H8 :=
  let fin := (kConst.zip (schedule chunk)).foldl sha256Round st
  ⟨w32 (st.a + fin.a), w32 (st.b + fin.b), w32 (st.c + fin.c), w32 (st.d + fin.d),
   w32 (st.e + fin.e), w32 (st.f + fin.f), w32 (st.g + fin.g), w32 (st.h + fin.h)⟩

/-- SHA-256 of a byte string, as its 32 digest bytes. -/
def sha256 (msg : List Nat) : List Nat :=
  let padded := sha256Pad msg
  let fin := (chunks64 padded.length padded).foldl compressChunk sha256Init
  be32 fin.a ++ be32 fin.b ++ be32 fin.c ++ be32 fin.d
    ++ be32 fin.e ++ be32 fin.f ++ be32 fin.g ++ be32 fin.h

/-! ## Lower-case hex encoding (the `hex` crate) -/

/-- Lower-case hex digit of a value below 16. -/
def hexDigit (n : Nat) : Char :=
  if n < 10 then Char.ofNat (48 + n) else Char.ofNat (87 + n)

/-- Lower-case hexadecimal encoding of a byte string (`hex::encode`). -/
def hexEncode (bs : List Nat) : String :=
  ⟨bs.flatMap (fun b => [hexDigit (b / 16), hexDigit (b % 16)])⟩

/-- FIPS 180-4 test vector: the file's SHA-256 agrees with the standard on
`"abc"`. -/
theorem sha256_test_vector_abc :
    hexEncode (sha256 (strBytes "abc")) =
      "ba7816bf8f01cfea414140de5dae2223b00361a396177a9cb410ff61f20015ad" := by
  decide

/-- FIPS 180-4 test vector: SHA-256 of the empty message. -/
theorem sha256_test_vector_empty :
    hexEncode (sha256 []) =
      "e3b0c44298fc1c149afbf4c8996fb92427ae41e4649b934ca495991b7852b855" := by
  decide

/-! ## HMAC-SHA256 (RFC 2104), the primitive behind the `hmac` crate -/

/-- HMAC-SHA256 with block size 64: keys longer than a block are hashed,
shorter ones zero-padded; inner pad byte `0x36`, outer pad byte `0x5c`. -/
def hmacSha256 (key msg : List Nat) : List Nat :=
  let k0 := if 64 < key.length then sha256 key else key
  let kp := k0 ++ List.replicate (64 - k0.length) 0
  sha256 ((kp.map (fun b => b ^^^ 92)) ++ sha256 ((kp.map (fun b => b ^^^ 54)) ++ msg))

/-- RFC 4231 test case 2: the file's HMAC-SHA256 agrees with the standard. -/
theorem hmac_test_vector_rfc4231 :
    hexEncode (hmacSha256 (strBytes "Jefe") (strBytes "what do ya want for nothing?")) =
      "5bdcc146bf60754e6a042426089575c75a003f089d2739839dec58b964ec3843" := by
  decide

/-! ## The error type (`src/error.rs`) -/

/-- `AppError` from `src/error.rs`.  Payload strings of the `jsonParse` and
`io` variants stand in for the wrapped foreign error values. -/
inductive AppError
  | config (msg : String)
  | hmacValidation
  | missingSignature
  | invalidSignatureFormat
  | eventTypeNotFound
  | unsupportedEvent (event : String)
  | primaryKeyPathNotFound (path : String)
  | pipelineSend
  | processing (msg : String)
  | database (msg : String)
  | jsonParse (msg : String)
  | io (msg : String)
  | secretNotFound (msg : String)
deriving DecidableEq, Repr

/-! ## JSON values (`serde_json::Value`) -/

/-- A `serde_json` number.  Integers (the `i64`/`u64` variants) are an `Int`;
finite doubles are modelled by their exact rational value.  (`serde_json`
numbers are never NaN/infinite.) -/
inductive JNumber
  | int (i : Int)
  | float (q : ℚ)
deriving DecidableEq, Repr

/-- `serde_json::Value`.  Objects are ordered association lists; `serde_json`
maps never hold duplicate keys, and lookup is first-match. -/
inductive Json
  | null
  | bool (b : Bool)
  | num (n : JNumber)
  | str (s : String)
  | arr (elems : List Json)
  | obj (fields : List (String × Json))

/-- Rust `Display` for a `serde_json` number.  The rendering of the `float`
case abstracts Rust's shortest-roundtrip `f64` formatting (no claim in this
development depends on float text). -/
def jnumToString : JNumber → String
  | .int i => toString i
  | .float q => toString q

/-- JSON string escaping as `serde_json` emits it (quote, backslash and
control characters). -/
def jsonEscapeChar (c : Char) : List Char :=
  if c = '"' then ['\\', '"']
  else if c = '\\' then ['\\', '\\']
  else if c = '\n' then ['\\', 'n']
  else if c = '\t' then ['\\', 't']
  else if c = '\r' then ['\\', 'r']
  else if c.toNat < 32 then
    ['\\', 'u', '0', '0', hexDigit (c.toNat / 16), hexDigit (c.toNat % 16)]
  else [c]

/-- A JSON string literal as `serde_json` emits it. -/
def jsonStrLit (s : String) : String :=
  "\"" ++ String.mk (s.data.flatMap jsonEscapeChar) ++ "\""

mutual

/-- Compact JSON serialization (`serde_json::Value::to_string`). -/
def Json.toCompactString : Json → String
  | .null => "null"
  | .bool b => if b then "true" else "false"
  | .num n => jnumToString n
  | .str s => jsonStrLit s
  | .arr elems => "[" ++ Json.arrBody elems ++ "]"
  | .obj fields => "\x7b" ++ Json.objBody fields ++ "\x7d"

/-- Comma-separated serialization of array elements. -/
def Json.arrBody : List Json → String
  | [] => ""
  | [x] => x.toCompactString
  | x :: xs => x.toCompactString ++ "," ++ Json.arrBody xs

/-- Comma-separated serialization of object entries. -/
def Json.objBody : List (String × Json) → String
  | [] => ""
  | [(k, v)] => jsonStrLit k ++ ":" ++ v.toCompactString
  | (k, v) :: xs => jsonStrLit k ++ ":" ++ v.toCompactString ++ "," ++ Json.objBody xs

end

/-! ## Canonical events (`src/pipeline/event.rs`) -/

/-- `Operation`: exactly two cases. -/
inductive Operation
  | write
  | delete
deriving DecidableEq, Repr

/-- `PkField`: a primary-key path and the extracted value rendered as text. -/
structure PkField where
  key : String
  value : String
deriving DecidableEq, Repr

/-- `PkFields`. -/
abbrev PkFields := List PkField

/-- The `sha2` incremental hasher, as the byte string absorbed so far. -/
def hasherUpdate (h bytes : List Nat) : List Nat := h ++ bytes

/-- `finalize` on the incremental hasher. -/
def hasherFinalize (h : List Nat) : List Nat := sha256 h

/-- `PipelineEvent::generate_id`: absorb `key`, `":"`, `value`, `";"` for each
primary-key field in order, finalize, and hex-encode. -/
def generate_id (pk_fields : PkFields) : String :=
  hexEncode (hasherFinalize (pk_fields.foldl
    (fun h f => hasherUpdate (hasherUpdate (hasherUpdate
      (hasherUpdate h (strBytes f.key)) [58]) (strBytes f.value)) [59]) []))

/-- `PipelineEvent`. -/
structure PipelineEvent where
  id : String
  body : Json
  event_type : String
  pk_fields : PkFields
  operation : Operation

/-- `PipelineEvent::new`: the id is computed from the primary-key fields. -/
def PipelineEvent.new (body : Json) (event_type : String) (pk_fields : PkFields)
    (operation : Operation) : PipelineEvent :=
  { id := generate_id pk_fields, body, event_type, pk_fields, operation }

/-- Unfolding the `generate_id` fold: absorbing the four byte strings of each
field in order concatenates them after the accumulator. -/
theorem generate_id_foldl (pk : PkFields) (acc : List Nat) :
    pk.foldl (fun h f => hasherUpdate (hasherUpdate (hasherUpdate
        (hasherUpdate h (strBytes f.key)) [58]) (strBytes f.value)) [59]) acc
      = acc ++ (pk.map
          (fun f => strBytes f.key ++ [58] ++ strBytes f.value ++ [59])).flatten := by
  induction pk generalizing acc with
  | nil => simp
  | cons f rest ih =>
    rw [List.foldl_cons, ih]
    simp [hasherUpdate]

/-- `Char.toNat` is injective, so byte strings determine strings. -/
theorem strBytes_injective {s t : String} (h : strBytes s = strBytes t) : s = t := by
  have hd : s.data = t.data := by
    refine List.map_injective_iff.mpr ?_ h
    intro a b hab
    have := congrArg Char.ofNat hab
    simpa [Char.ofNat_toNat] using this
  cases s
  cases t
  simp only at hd
  rw [hd]

/-- C1: the id of a canonical event built from a list of primary-key fields is
the lower-case hexadecimal SHA-256 digest of the byte concatenation, for every
field in order, of `key ++ ":" ++ value ++ ";"`; and the id is a function of
the primary-key fields alone — the same fields with any other body, event type
or operation give the identical id. -/
theorem event_id_is_content_address (pkFields : PkFields)
    (body body' : Json) (eventType eventType' : String) (op op' : Operation) :
    (PipelineEvent.new body eventType pkFields op).id
      = hexEncode (sha256 ((pkFields.map (fun f =>
          strBytes f.key ++ strBytes ":" ++ strBytes f.value ++ strBytes ";")).flatten))
    ∧ (PipelineEvent.new body eventType pkFields op).id
      = (PipelineEvent.new body' eventType' pkFields op').id := by
  constructor
  · show generate_id pkFields = _
    unfold generate_id hasherFinalize
    rw [generate_id_foldl]
    have h1 : strBytes ":" = [58] := rfl
    have h2 : strBytes ";" = [59] := rfl
    simp [h1, h2]
  · rfl

/-! ## HMAC validator (`src/sources/webhook/hmac.rs`) -/

/-- Rust `str::strip_prefix` with a literal pattern: the remainder when `s`
begins with `pat`. -/
def stripLit (s pat : String) : Option String :=
  if s.data.take pat.data.length = pat.data then some ⟨s.data.drop pat.data.length⟩
  else none

/-- `HmacValidator`: the resolved shared secret and the configured signature
header name. -/
structure HmacValidator where
  secret : String
  header_name : String

/-- `HmacValidator::validate_body`: recompute the MAC over the body, hex-encode
and compare to the presented hex string byte-for-byte (`subtle::ConstantTimeEq`
over the ASCII bytes; slices of distinct length compare unequal, so the
semantics is exact byte-string equality). -/
def HmacValidator.validate_body (v : HmacValidator) (body : List Nat)
    (expected_signature : String) : Except AppError Unit :=
  let computed_signature := hexEncode (hmacSha256 (strBytes v.secret) body)
  if strBytes computed_signature = strBytes expected_signature then .ok ()
  else .error .hmacValidation

/-- `HmacValidator::validate`: require the `sha256=` marker, then check the
remainder of the header against the recomputed MAC. -/
def HmacValidator.validate (v : HmacValidator) (body : List Nat)
    (signature_header : String) : Except AppError Unit :=
  match stripLit signature_header "sha256=" with
  | none => .error .invalidSignatureFormat
  | some signature => v.validate_body body signature

/-- C2: validation fails with `invalidSignatureFormat` exactly when the header
does not begin with the literal `sha256=`; otherwise it succeeds exactly when
the remainder of the header is the lower-case hex HMAC-SHA256 of the body under
the configured secret, and fails with `hmacValidation` on any mismatch. -/
theorem hmac_validate_spec (v : HmacValidator) (body : List Nat) (header : String) :
    (v.validate body header = .error .invalidSignatureFormat
      ↔ header.data.take 7 ≠ ("sha256=" : String).data)
    ∧ (v.validate body header = .ok ()
      ↔ header.data.take 7 = ("sha256=" : String).data
        ∧ String.mk (header.data.drop 7)
            = hexEncode (hmacSha256 (strBytes v.secret) body))
    ∧ (v.validate body header = .error .hmacValidation
      ↔ header.data.take 7 = ("sha256=" : String).data
        ∧ String.mk (header.data.drop 7)
            ≠ hexEncode (hmacSha256 (strBytes v.secret) body)) := by
  have hlen : ("sha256=" : String).data.length = 7 := rfl
  by_cases hp : header.data.take 7 = ("sha256=" : String).data
  · have hv : v.validate body header
        = if strBytes (hexEncode (hmacSha256 (strBytes v.secret) body))
            = strBytes (String.mk (header.data.drop 7)) then .ok ()
          else .error .hmacValidation := by
      unfold HmacValidator.validate stripLit HmacValidator.validate_body
      rw [hlen, if_pos hp]
    by_cases hm : String.mk (header.data.drop 7)
        = hexEncode (hmacSha256 (strBytes v.secret) body)
    · rw [hv, if_pos (congrArg strBytes hm.symm)]
      simp [hp, hm]
    · rw [hv, if_neg (fun hb => hm ((strBytes_injective hb).symm))]
      simp [hp, hm]
  · have hv : v.validate body header = .error .invalidSignatureFormat := by
      unfold HmacValidator.validate stripLit
      rw [hlen, if_neg hp]
    rw [hv]
    simp [hp]

/-! ## Dotted-path extraction (`src/sources/webhook/types.rs`) -/

/-- Character-level worker for `splitDots`; `acc` holds the current segment
reversed. -/
def splitDotsChars : List Char → List Char → List String
  | [], acc => [String.mk acc.reverse]
  | c :: rest, acc =>
    if c = '.' then String.mk acc.reverse :: splitDotsChars rest []
    else splitDotsChars rest (c :: acc)

/-- Rust `path.split('.')`: split on every dot, keeping empty segments; the
empty path yields one empty segment. -/
def splitDots (path : String) : List String := splitDotsChars path.data []

/-- `serde_json::Value::get` with a string index: key lookup on objects and
`None` on every other variant — arrays included (a string index never indexes
an array). -/
def jsonGet (v : Json) (segment : String) : Option Json :=
  match v with
  | .obj fields => fields.lookup segment
  | _ => none

/-- The segment loop of `extract_value_by_path`: `current.get(segment)` per
segment, with early return of `PrimaryKeyPathNotFound(path)`. -/
def descendPath (path : String) : List String → Json → Except AppError Json
  | [], current => .ok current
  | seg :: rest, current =>
    match jsonGet current seg with
    | some nxt => descendPath path rest nxt
    | none => .error (.primaryKeyPathNotFound path)

/-- `extract_value_by_path`. -/
def extract_value_by_path (body : Json) (path : String) : Except AppError Json :=
  descendPath path (splitDots path) body

/-- The spec-side resolution relation for a dotted path: the descent reaches
`v` from `current` through object-key lookups only. -/
def resolvesTo : Json → List String → Json → Prop
  | current, [], v => v = current
  | current, seg :: rest, v =>
    ∃ fields nxt, current = Json.obj fields ∧ fields.lookup seg = some nxt
      ∧ resolvesTo nxt rest v

/-- The descent loop succeeds exactly on paths every segment of which is a
defined object key. -/
theorem descendPath_ok_iff (path : String) (segs : List String) (current v : Json) :
    descendPath path segs current = .ok v ↔ resolvesTo current segs v := by
  induction segs generalizing current with
  | nil => simp [descendPath, resolvesTo, eq_comm]
  | cons seg rest ih =>
    cases current with
    | obj fields =>
      simp only [descendPath, jsonGet]
      cases hl : fields.lookup seg with
      | none => simp [resolvesTo, hl]
      | some nxt => simp [resolvesTo, hl, ih]
    | null => simp [descendPath, jsonGet, resolvesTo]
    | bool b => simp [descendPath, jsonGet, resolvesTo]
    | num n => simp [descendPath, jsonGet, resolvesTo]
    | str s => simp [descendPath, jsonGet, resolvesTo]
    | arr elems => simp [descendPath, jsonGet, resolvesTo]

/-- The descent loop fails only with `PrimaryKeyPathNotFound path`, exactly
when no value resolves. -/
theorem descendPath_error_iff (path : String) (segs : List String) (current : Json)
    (e : AppError) :
    descendPath path segs current = .error e
      ↔ e = .primaryKeyPathNotFound path ∧ ∀ v, ¬ resolvesTo current segs v := by
  induction segs generalizing current with
  | nil =>
    simp only [descendPath, resolvesTo]
    constructor
    · intro h
      cases h
    · rintro ⟨-, hv⟩
      exact absurd rfl (hv current)
  | cons seg rest ih =>
    cases current with
    | obj fields =>
      simp only [descendPath, jsonGet]
      cases hl : fields.lookup seg with
      | none => simp [resolvesTo, hl, eq_comm]
      | some nxt => simp [resolvesTo, hl, ih]
    | null => simp [descendPath, jsonGet, resolvesTo, eq_comm]
    | bool b => simp [descendPath, jsonGet, resolvesTo, eq_comm]
    | num n => simp [descendPath, jsonGet, resolvesTo, eq_comm]
    | str s => simp [descendPath, jsonGet, resolvesTo, eq_comm]
    | arr elems => simp [descendPath, jsonGet, resolvesTo, eq_comm]

/-- C3 counterexample: on a JSON array, a decimal-integer segment does NOT
descend by index — `Value::get` with a string index returns `None` on arrays,
so extraction fails with `PrimaryKeyPathNotFound`, where the claim promises
the element `"a"` at index 0. -/
theorem extract_value_by_path_array_counterexample :
    extract_value_by_path (Json.arr [Json.str "a"]) "0"
      = .error (.primaryKeyPathNotFound "0") := rfl

/-- C3 (amended): `extract(body, path)` splits the path on `'.'` and descends
through JSON objects by key lookup ONLY — a segment applied to an array (even
a decimal-integer one in range), or to any other non-object, fails exactly
like an absent key — returning the value at the end of the descent, and
returning `PrimaryKeyPathNotFound` carrying that path whenever the descent
fails. -/
theorem extract_value_by_path_spec (body : Json) (path : String) :
    (∀ v, extract_value_by_path body path = .ok v
      ↔ resolvesTo body (splitDots path) v)
    ∧ ∀ e, extract_value_by_path body path = .error e
      ↔ e = .primaryKeyPathNotFound path ∧ ∀ v, ¬ resolvesTo body (splitDots path) v :=
  ⟨fun v => descendPath_ok_iff path (splitDots path) body v,
   fun e => descendPath_error_iff path (splitDots path) body e⟩

/-- `get_primary_key_by_path`: extract the value at `path`, render it as text
(strings as-is, numbers and booleans via `to_string`, anything else via
compact JSON serialization), and wrap it in a single-entry field list keyed by
the original path. -/
def get_primary_key_by_path (path : String) (body : Json) : Except AppError PkFields :=
  match extract_value_by_path body path with
  | .error e => .error e
  | .ok value =>
    let value_str :=
      match value with
      | .str s => s
      | .num n => jnumToString n
      | .bool b => if b then "true" else "false"
      | _ => value.toCompactString
    .ok [{ key := path, value := value_str }]

/-- A successful primary-key extraction is a singleton keyed by the path. -/
theorem get_primary_key_by_path_shape (path : String) (body : Json) (pk : PkFields)
    (h : get_primary_key_by_path path body = .ok pk) :
    ∃ v, pk = [{ key := path, value := v }] := by
  unfold get_primary_key_by_path at h
  split at h
  · cases h
  · exact ⟨_, (Except.ok.injEq _ _).mp h.symm⟩

/-! ## The Jira source adapter (`src/sources/jira/`) -/

/-- `EventConfig`: the operation together with the primary-key path captured
by the `get_field_id` closure (`get_primary_key_by_path(path)` — §`events.rs`,
every table entry uses that extractor). -/
structure EventConfig where
  operation : Operation
  pk_path : String

/-- The static Jira event table of `get_supported_events`, as an association
list (lookup-only; `HashMap` iteration order is never observed). -/
def get_supported_events : List (String × EventConfig) :=
  [("jira:issue_created", ⟨.write, "issue.id"⟩),
   ("jira:issue_updated", ⟨.write, "issue.id"⟩),
   ("jira:issue_deleted", ⟨.delete, "issue.id"⟩),
   ("issuelink_created", ⟨.write, "issueLink.id"⟩),
   ("issuelink_deleted", ⟨.delete, "issueLink.id"⟩),
   ("project_created", ⟨.write, "project.id"⟩),
   ("project_updated", ⟨.write, "project.id"⟩),
   ("project_deleted", ⟨.delete, "project.id"⟩),
   ("project_soft_deleted", ⟨.delete, "project.id"⟩),
   ("project_restored_deleted", ⟨.write, "project.id"⟩),
   ("jira:version_released", ⟨.write, "version.id"⟩),
   ("jira:version_unreleased", ⟨.write, "version.id"⟩),
   ("jira:version_created", ⟨.write, "version.id"⟩),
   ("jira:version_updated", ⟨.write, "version.id"⟩),
   ("jira:version_deleted", ⟨.delete, "version.id"⟩)]

/-- `get_event_type`: the `webhookEvent` field read as a string. -/
def get_event_type (body : Json) : Except AppError String :=
  match jsonGet body "webhookEvent" with
  | some (.str s) => .ok s
  | _ => .error .eventTypeNotFound

/-- Outcome of a handler invocation: the HTTP status produced on the success
path together with the events sent on the pipeline channel. -/
structure HandlerOutcome where
  status : Nat
  sent : List PipelineEvent

/-- `handle_jira_webhook`.  `parse` stands for `serde_json::from_slice` and
`send_ok` for the channel-send outcome (`false` = receiver gone); both are
external to the core.  Steps, in source order: signature header presence, HMAC
validation, JSON parse, event-type extraction, table lookup (unknown event ⇒
200 with nothing sent), primary-key extraction, event construction, channel
send. -/
def handle_jira_webhook (parse : List Nat → Option Json) (send_ok : Bool)
    (validator : HmacValidator) (events : List (String × EventConfig))
    (header : Option String) (body : List Nat) : Except AppError HandlerOutcome :=
  match header with
  | none => .error .missingSignature
  | some signature =>
    match validator.validate body signature with
    | .error e => .error e
    | .ok () =>
      match parse body with
      | none => .error (.jsonParse "expected value")
      | some json_body =>
        match get_event_type json_body with
        | .error e => .error e
        | .ok event_type =>
          match events.lookup event_type with
          | none => .ok ⟨200, []⟩
          | some event_config =>
            match get_primary_key_by_path event_config.pk_path json_body with
            | .error e => .error e
            | .ok pk_fields =>
              if send_ok then
                .ok ⟨200, [PipelineEvent.new json_body event_type pk_fields
                  event_config.operation]⟩
              else .error .pipelineSend

/-- C4: when the signature validates and the body is valid JSON whose
`webhookEvent` string is not in the supported-event table, the handler answers
200 OK and sends nothing on the pipeline channel. -/
theorem unknown_event_swallowed (parse : List Nat → Option Json) (send_ok : Bool)
    (validator : HmacValidator) (header : String) (body : List Nat)
    (json_body : Json) (event_type : String)
    (hsig : validator.validate body header = .ok ())
    (hparse : parse body = some json_body)
    (hevt : get_event_type json_body = .ok event_type)
    (hunknown : get_supported_events.lookup event_type = none) :
    handle_jira_webhook parse send_ok validator get_supported_events
      (some header) body = .ok ⟨200, []⟩ := by
  unfold handle_jira_webhook
  simp only [hsig, hparse, hevt, hunknown]

/-- C4 witness: a concrete request carrying `webhookEvent = "jira:whatever"`
with a correctly signed body is answered 200 with no event sent. -/
theorem unknown_event_swallowed_witness :
    handle_jira_webhook
      (fun _ => some (Json.obj [("webhookEvent", Json.str "jira:whatever")])) true
      ⟨"test_secret", "X-Hub-Signature"⟩ get_supported_events
      (some ("sha256=" ++ hexEncode (hmacSha256 (strBytes "test_secret") (strBytes "x"))))
      (strBytes "x")
      = .ok ⟨200, []⟩ :=
  unknown_event_swallowed _ _ _ _ _ _ _ (by rfl) rfl rfl rfl

/-- C10: every event the Jira handler emits on the pipeline channel carries
exactly one primary-key field, and its key is the configured primary-key path
of the matched event type — strictly stronger than mere non-emptiness. -/
theorem sent_event_pk_singleton (parse : List Nat → Option Json) (send_ok : Bool)
    (validator : HmacValidator) (header : Option String) (body : List Nat)
    (out : HandlerOutcome) (e : PipelineEvent)
    (hrun : handle_jira_webhook parse send_ok validator get_supported_events
        header body = .ok out)
    (hmem : e ∈ out.sent) :
    e.pk_fields.length = 1
      ∧ ∃ cfg v, get_supported_events.lookup e.event_type = some cfg
          ∧ e.pk_fields = [{ key := cfg.pk_path, value := v }] := by
  obtain ⟨status, sent⟩ := out
  unfold handle_jira_webhook at hrun
  cases header with
  | none => exact Except.noConfusion hrun
  | some signature =>
    cases hv : HmacValidator.validate validator body signature with
    | error e2 => simp [hv] at hrun
    | ok u =>
      cases u
      simp only [hv] at hrun
      cases hp : parse body with
      | none => simp [hp] at hrun
      | some json_body =>
        simp only [hp] at hrun
        cases he : get_event_type json_body with
        | error e2 => simp [he] at hrun
        | ok event_type =>
          simp only [he] at hrun
          cases hl : get_supported_events.lookup event_type with
          | none =>
            simp only [hl, Except.ok.injEq, HandlerOutcome.mk.injEq] at hrun
            obtain ⟨-, hsent⟩ := hrun
            subst hsent
            simp at hmem
          | some cfg =>
            simp only [hl] at hrun
            cases hpk : get_primary_key_by_path cfg.pk_path json_body with
            | error e2 => simp [hpk] at hrun
            | ok pk_fields =>
              simp only [hpk] at hrun
              cases send_ok with
              | false => simp at hrun
              | true =>
                simp only [if_true, Except.ok.injEq, HandlerOutcome.mk.injEq] at hrun
                obtain ⟨-, hsent⟩ := hrun
                subst hsent
                simp only [List.mem_singleton] at hmem
                subst hmem
                obtain ⟨v, hshape⟩ := get_primary_key_by_path_shape _ _ _ hpk
                subst hshape
                exact ⟨rfl, cfg, v, hl, rfl⟩

/-- The spec's scenario-1 payload: a `jira:issue_created` delivery for issue
12345. -/
def jiraScenarioBody : Json :=
  Json.obj [("webhookEvent", Json.str "jira:issue_created"),
            ("issue", Json.obj [("id", Json.str "12345"), ("key", Json.str "TEST-123")])]

/-- The canonical event that scenario-1 payload produces. -/
def jiraScenarioEvent : PipelineEvent :=
  PipelineEvent.new jiraScenarioBody "jira:issue_created"
    [{ key := "issue.id", value := "12345" }] Operation.write

/-- C10 witness: the scenario-1 `jira:issue_created` delivery, correctly
signed, yields an event with a single `issue.id` primary-key field. -/
theorem sent_event_pk_singleton_witness :
    jiraScenarioEvent.pk_fields.length = 1
      ∧ ∃ cfg v, get_supported_events.lookup jiraScenarioEvent.event_type = some cfg
          ∧ jiraScenarioEvent.pk_fields = [{ key := cfg.pk_path, value := v }] :=
  sent_event_pk_singleton (fun _ => some jiraScenarioBody) true
    ⟨"test_secret", "X-Hub-Signature"⟩
    (some ("sha256=" ++ hexEncode (hmacSha256 (strBytes "test_secret") (strBytes "x"))))
    (strBytes "x") ⟨200, [jiraScenarioEvent]⟩ jiraScenarioEvent
    (by rfl) (by simp)

/-! ## The CEL filter processor (`src/pipeline/processors/filter.rs`) -/

/-- A `cel_interpreter` result value, as far as the filter inspects it: the
two boolean outcomes are dispatched on; the remaining variants only witness
that the result is not a boolean (further CEL value structure is never
observed by the core). -/
inductive CelValue
  | bool (b : Bool)
  | int (i : Int)
  | str (s : String)
  | null

/-- The CEL evaluation context the filter builds for an event, in insertion
order: `eventType`, `body`, then — when the body is an object — one variable
per top-level key. -/
def filterContext (event : PipelineEvent) : List (String × Json) :=
  [("eventType", Json.str event.event_type), ("body", event.body)]
    ++ (match event.body with
        | .obj fields => fields
        | _ => [])

/-- `FilterProcessor`: `program` is the compiled CEL expression — the external
`cel_interpreter::Program::execute`, a function of the context. -/
structure FilterProcessor where
  program : List (String × Json) → Except String CelValue

/-- `FilterProcessor::process`: evaluate the program on the event context;
`Bool(true)` passes the event through unchanged, `Bool(false)` drops it, any
other result or an evaluation failure is a `Processing` error. -/
def FilterProcessor.process (f : FilterProcessor) (event : PipelineEvent) :
    Except AppError (Option PipelineEvent) :=
  match f.program (filterContext event) with
  | .error e => .error (.processing ("Failed to evaluate CEL expression: " ++ e))
  | .ok (.bool true) => .ok (some event)
  | .ok (.bool false) => .ok none
  | .ok _ => .error (.processing "CEL expression did not evaluate to boolean")

/-- C5: for every compiled expression, the filter passes the event through
unchanged iff the expression evaluates to boolean `true` in the context
binding `eventType`, `body` and each top-level key of an object body; drops it
iff the expression evaluates to boolean `false`; and produces a `Processing`
error iff the result is anything but a boolean (including evaluation
failure). -/
theorem filter_process_spec (f : FilterProcessor) (event : PipelineEvent) :
    (f.process event = .ok (some event)
      ↔ f.program (filterContext event) = .ok (.bool true))
    ∧ (f.process event = .ok none
      ↔ f.program (filterContext event) = .ok (.bool false))
    ∧ ((∃ msg, f.process event = .error (.processing msg))
      ↔ ∀ b, f.program (filterContext event) ≠ .ok (.bool b)) := by
  unfold FilterProcessor.process
  cases hr : f.program (filterContext event) with
  | error e => simp [hr]
  | ok v =>
    cases v with
    | bool b => cases b <;> simp [hr]
    | int i => simp [hr]
    | str s => simp [hr]
    | null => simp [hr]

/-! ## The mapper processor (`src/pipeline/processors/mapper.rs`) -/

/-- Rust `char::is_whitespace`, restricted to the ASCII whitespace the
connector's templates use (the Unicode extension is never exercised). -/
def isRustWhitespace (c : Char) : Bool :=
  c = ' ' || c = '\t' || c = '\n' || c = '\r' || c = '\x0b' || c = '\x0c'

/-- Rust `str::trim`. -/
def strTrim (s : String) : String :=
  String.mk (((s.data.dropWhile isRustWhitespace).reverse.dropWhile
    isRustWhitespace).reverse)

/-- Rust `str::starts_with` for a literal pattern. -/
def startsWithLit (s pat : String) : Bool :=
  s.data.take pat.data.length == pat.data

/-- Rust `str::ends_with` for a literal pattern. -/
def endsWithLit (s pat : String) : Bool :=
  s.data.drop (s.data.length - pat.data.length) == pat.data

/-- Non-overlapping occurrences of `"{{"` (Rust `s.matches("{{").count()`). -/
def countMustacheChars : List Char → Nat
  | '\x7b' :: '\x7b' :: rest => countMustacheChars rest + 1
  | _ :: rest => countMustacheChars rest
  | [] => 0

/-- `s.matches("{{").count()`. -/
def countMustache (s : String) : Nat := countMustacheChars s.data

/-- Whether `s` contains `"{{"` (Rust `str::contains`). -/
def containsMustache : List Char → Bool
  | '\x7b' :: '\x7b' :: _ => true
  | _ :: rest => containsMustache rest
  | [] => false

/-- `trimmed[2..trimmed.len()-2]`: the text between the outer mustaches. -/
def innerOfMustache (s : String) : String :=
  String.mk ((s.data.drop 2).take (s.data.length - 4))

/-- Decimal digits to a natural number. -/
def digitsToNat (ds : List Char) : Nat :=
  ds.foldl (fun acc c => acc * 10 + (c.toNat - 48)) 0

/-- Rust `str::parse::<usize>`: optional `+`, one or more ASCII digits, value
within the 64-bit range. -/
def parseUsize (s : String) : Option Nat :=
  let ds := match s.data with
    | '+' :: rest => rest
    | l => l
  if ds ≠ [] ∧ ds.all (fun c => c.isDigit) then
    let n := digitsToNat ds
    if n < 18446744073709551616 then some n else none
  else none

/-- Rust `str::parse::<i64>`: optional sign, one or more ASCII digits, value
within the signed 64-bit range. -/
def parseI64 (s : String) : Option Int :=
  let signDigits : Int × List Char := match s.data with
    | '+' :: rest => (1, rest)
    | '-' :: rest => (-1, rest)
    | l => (1, l)
  let ds := signDigits.2
  if ds ≠ [] ∧ ds.all (fun c => c.isDigit) then
    let n : Int := signDigits.1 * (digitsToNat ds : Int)
    if -9223372036854775808 ≤ n ∧ n ≤ 9223372036854775807 then some n else none
  else none

/-- Result of Rust `str::parse::<f64>`: a finite value (by its exact decimal
reading — IEEE rounding and over/underflow to `±inf`/`0` are not modelled, no
claim observes float magnitudes), or one of the non-finite keywords. -/
inductive F64Parse
  | finite (q : ℚ)
  | infinite
  | nan

/-- ASCII lowercasing of one character. -/
def lowerAscii (c : Char) : Char :=
  if 'A' ≤ c ∧ c ≤ 'Z' then Char.ofNat (c.toNat + 32) else c

/-- Rust `str::to_lowercase`, on the ASCII alphabet the cast tags use. -/
def strToLower (s : String) : String := String.mk (s.data.map lowerAscii)

/-- Split a mantissa from an optional exponent part at the first `e`/`E`. -/
def splitExpChars : List Char → (List Char × Option (List Char))
  | [] => ([], none)
  | c :: rest =>
    if c = 'e' ∨ c = 'E' then ([], some rest)
    else
      let (m, ex) := splitExpChars rest
      (c :: m, ex)

/-- Parse `Digits ['.' Digits?] | '.' Digits` as an exact rational. -/
def parseMantissa (cs : List Char) : Option ℚ :=
  let intPart := cs.takeWhile (fun c => c.isDigit)
  let rest := cs.drop intPart.length
  match rest with
  | [] => if intPart = [] then none else some (digitsToNat intPart : ℚ)
  | '.' :: frac =>
    if frac.all (fun c => c.isDigit) ∧ (intPart ≠ [] ∨ frac ≠ []) then
      some ((digitsToNat intPart : ℚ)
        + (digitsToNat frac : ℚ) / (10 : ℚ) ^ frac.length)
    else none
  | _ => none

/-- Parse `Sign? Digits` as an exponent. -/
def parseExpInt (cs : List Char) : Option Int :=
  let signDigits : Int × List Char := match cs with
    | '+' :: rest => (1, rest)
    | '-' :: rest => (-1, rest)
    | l => (1, l)
  let ds := signDigits.2
  if ds ≠ [] ∧ ds.all (fun c => c.isDigit) then
    some (signDigits.1 * (digitsToNat ds : Int))
  else none

/-- Rust `str::parse::<f64>`: optional sign, then the case-insensitive
keywords `inf`/`infinity`/`nan` or a decimal number with optional exponent. -/
def parseF64 (s : String) : Option F64Parse :=
  let signRest : Bool × List Char := match s.data with
    | '+' :: rest => (false, rest)
    | '-' :: rest => (true, rest)
    | l => (false, l)
  let low := signRest.2.map lowerAscii
  if low = ['i', 'n', 'f'] ∨ low = ['i', 'n', 'f', 'i', 'n', 'i', 't', 'y'] then
    some .infinite
  else if low = ['n', 'a', 'n'] then some .nan
  else
    let (mant, expPart) := splitExpChars signRest.2
    match parseMantissa mant with
    | none => none
    | some q =>
      let signed : ℚ := if signRest.1 then -q else q
      match expPart with
      | none => some (.finite signed)
      | some ecs =>
        match parseExpInt ecs with
        | none => none
        | some e => some (.finite (signed * (10 : ℚ) ^ e))

/-- `serde_json::json!` applied to a parsed `f64`: finite values become JSON
numbers; `±inf` and NaN have no JSON number representation and become
`null`. -/
def jsonOfF64 : F64Parse → Json
  | .finite q => Json.num (.float q)
  | .infinite => Json.null
  | .nan => Json.null

/-- `MapperProcessor::cast_value`: the cast sub-language.  The tag is
lowercased before dispatch; `"string"` casts scalars to text, `"number"`
passes numbers through, parses strings as integer first then float, maps
booleans to 1/0; everything else is a `Processing` error. -/
def cast_value (value : Json) (cast_to : String) : Except AppError Json :=
  if strToLower cast_to = "string" then
    match value with
    | .str s => .ok (.str s)
    | .num n => .ok (.str (jnumToString n))
    | .bool b => .ok (.str (if b then "true" else "false"))
    | .null => .ok (.str "")
    | _ => .error (.processing "Cannot cast complex type to string")
  else if strToLower cast_to = "number" then
    match value with
    | .num n => .ok (.num n)
    | .str s =>
      match parseI64 s with
      | some i => .ok (.num (.int i))
      | none =>
        match parseF64 s with
        | some r => .ok (jsonOfF64 r)
        | none => .error (.processing ("Cannot parse as number: " ++ s))
    | .bool b => .ok (.num (.int (if b then 1 else 0)))
    | _ => .error (.processing "Cannot cast type to number")
  else .error (.processing ("Unsupported cast type: " ++ cast_to))

/-- C7 counterexample: `castTo = "NUMBER"` differs from both `"string"` and
`"number"`, yet the cast succeeds — `cast_value` lowercases the tag before
dispatching, where the claim demands a `Processing` error for any tag other
than the two literals. -/
theorem cast_value_uppercase_counterexample :
    cast_value (Json.num (.int 5)) "NUMBER" = .ok (Json.num (.int 5))
      ∧ "NUMBER" ≠ "string" ∧ "NUMBER" ≠ "number" :=
  ⟨rfl, by decide, by decide⟩

/-- C7 (amended): under `castTo = "number"`, numbers pass through unchanged,
strings are parsed as integer first and then as float (failure is a
`Processing` error), booleans become 1 and 0, and every other rendered value
is a `Processing` error; and any `castTo` whose ASCII lowercasing is neither
`"string"` nor `"number"` — the comparison is case-insensitive, not literal —
is a `Processing` error. -/
theorem cast_value_number_spec (castTo : String) (v : Json) :
    (∀ n, cast_value (Json.num n) "number" = .ok (Json.num n))
    ∧ (∀ s i, parseI64 s = some i →
        cast_value (Json.str s) "number" = .ok (Json.num (.int i)))
    ∧ (∀ s r, parseI64 s = none → parseF64 s = some r →
        cast_value (Json.str s) "number" = .ok (jsonOfF64 r))
    ∧ (∀ s, parseI64 s = none → parseF64 s = none →
        ∃ msg, cast_value (Json.str s) "number" = .error (.processing msg))
    ∧ (∀ b, cast_value (Json.bool b) "number"
        = .ok (Json.num (.int (if b then 1 else 0))))
    ∧ (∃ msg, cast_value Json.null "number" = .error (.processing msg))
    ∧ (∀ elems, ∃ msg, cast_value (Json.arr elems) "number"
        = .error (.processing msg))
    ∧ (∀ fields, ∃ msg, cast_value (Json.obj fields) "number"
        = .error (.processing msg))
    ∧ (strToLower castTo ≠ "string" → strToLower castTo ≠ "number" →
        ∃ msg, cast_value v castTo = .error (.processing msg)) := by
  have hlow : strToLower "number" = "number" := rfl
  have hns : ¬ (strToLower "number" = "string") := by decide
  refine ⟨fun n => ?_, fun s i hi => ?_, fun s r hi hf => ?_, fun s hi hf => ?_,
    fun b => ?_, ?_, fun elems => ?_, fun fields => ?_, fun h1 h2 => ?_⟩
  · simp [cast_value, hlow, hns]
  · simp [cast_value, hlow, hns, hi]
  · simp [cast_value, hlow, hns, hi, hf]
  · exact ⟨"Cannot parse as number: " ++ s, by simp [cast_value, hlow, hns, hi, hf]⟩
  · simp [cast_value, hlow, hns]
  · exact ⟨"Cannot cast type to number", by simp [cast_value, hlow, hns]⟩
  · exact ⟨"Cannot cast type to number", by simp [cast_value, hlow, hns]⟩
  · exact ⟨"Cannot cast type to number", by simp [cast_value, hlow, hns]⟩
  · exact ⟨"Unsupported cast type: " ++ castTo, by simp [cast_value, h1, h2]⟩

/-- C7 witness: the scenario-6 cast of the string `"9999"` to a number yields
the JSON number 9999, and an unsupported tag (`"boolean"`, lowercase already)
raises a `Processing` error. -/
theorem cast_value_number_spec_witness :
    cast_value (Json.str "9999") "number" = .ok (Json.num (.int 9999))
      ∧ ∃ msg, cast_value Json.null "boolean" = .error (.processing msg) :=
  ⟨(cast_value_number_spec "boolean" Json.null).2.1 "9999" 9999 (by decide),
   (cast_value_number_spec "boolean" Json.null).2.2.2.2.2.2.2.2
     (by decide) (by decide)⟩

/-- The descent loop of `MapperProcessor::extract_value_from_path`: objects by
key lookup, arrays by parsed decimal index, anything else fails. -/
def extractFromParts : List String → Json → Option Json
  | [], current => some current
  | part :: rest, current =>
    match current with
    | .obj fields =>
      match fields.lookup part with
      | some nxt => extractFromParts rest nxt
      | none => none
    | .arr elems =>
      match parseUsize part with
      | some index =>
        match elems.get? index with
        | some nxt => extractFromParts rest nxt
        | none => none
      | none => none
    | _ => none

/-- `MapperProcessor::extract_value_from_path` — the mapper's own descent,
which (unlike `extract_value_by_path` of `types.rs`) does index arrays. -/
def extract_value_from_path (path : String) (context : Json) : Option Json :=
  extractFromParts (splitDots path) context

/-- `MapperProcessor`: the `outputEvent` template together with the two
external collaborators the renderer calls — `handlebars.render_template` and
`serde_json::from_str` applied to rendered text. -/
structure MapperProcessor where
  handlebars : String → Json → Except String String
  parse_json : String → Option Json
  template : Json

/-- The `Value::String` arm of `MapperProcessor::render_value` (it makes no
recursive call, so it is split out): trim; if the node is a mustache pair,
return the whole context for `@this`, or the raw value of a resolving path
when the node holds a single mustache; otherwise render through Handlebars and
re-parse results that look like JSON. -/
def MapperProcessor.render_string (m : MapperProcessor) (s : String)
    (context : Json) : Except AppError Json :=
  let trimmed := strTrim s
  let direct : Option Json :=
    if startsWithLit trimmed "\x7b\x7b" && endsWithLit trimmed "\x7d\x7d" then
      let inner := strTrim (innerOfMustache trimmed)
      if inner = "@this" then some context
      else if (!(inner.data.contains '|') && !(containsMustache trimmed.data))
          || countMustache trimmed == 1 then
        extract_value_from_path inner context
      else none
    else none
  match direct with
  | some raw => .ok raw
  | none =>
    match m.handlebars s context with
    | .error e => .error (.processing ("Template rendering failed: " ++ e))
    | .ok rendered =>
      if (startsWithLit rendered "\x7b" && endsWithLit rendered "\x7d")
          || (startsWithLit rendered "[" && endsWithLit rendered "]") then
        match m.parse_json rendered with
        | some parsed => .ok parsed
        | none => .ok (.str rendered)
      else .ok (.str rendered)

/-- A value found by association-list lookup is smaller than the list, in the
`sizeOf` order used for the renderer's termination. -/
theorem sizeOf_lookup_lt {fields : List (String × Json)} {k : String} {v : Json}
    (h : fields.lookup k = some v) : sizeOf v < 1 + sizeOf fields := by
  induction fields with
  | nil => simp [List.lookup] at h
  | cons p rest ih =>
    obtain ⟨k2, v2⟩ := p
    by_cases hbe : (k == k2) = true
    · simp [List.lookup, hbe] at h
      subst h
      simp
      omega
    · simp [List.lookup, hbe] at h
      have := ih h
      simp
      omega

mutual

/-- `MapperProcessor::render_value`: strings through the mustache/Handlebars
logic; an object holding both `value` and `castTo` keys is a cast form
(`castTo` must be a string, checked before rendering the sub-template);
any other object and every array is rebuilt node-by-node; numbers, booleans
and null are copied. -/
def MapperProcessor.render_value (m : MapperProcessor) (value context : Json) :
    Except AppError Json :=
  match value with
  | .str s => m.render_string s context
  | .obj map =>
    match hv : map.lookup "value", map.lookup "castTo" with
    | some value_template, some cast_to_val =>
      match cast_to_val with
      | .str cast_to =>
        match m.render_value value_template context with
        | .error e => .error e
        | .ok rendered_value => cast_value rendered_value cast_to
      | _ => .error (.processing "castTo must be a string")
    | _, _ =>
      match m.render_obj map context with
      | .error e => .error e
      | .ok fields2 => .ok (.obj fields2)
  | .arr arr =>
    match m.render_arr arr context with
    | .error e => .error e
    | .ok vs => .ok (.arr vs)
  | _ => .ok value
termination_by sizeOf value
decreasing_by
  all_goals simp_wf
  have := sizeOf_lookup_lt hv
  omega

/-- The element loop of the `Value::Array` arm (`?` propagates errors). -/
def MapperProcessor.render_arr (m : MapperProcessor) :
    List Json → Json → Except AppError (List Json)
  | [], _ => .ok []
  | x :: xs, context =>
    match m.render_value x context with
    | .error e => .error e
    | .ok v =>
      match m.render_arr xs context with
      | .error e => .error e
      | .ok vs => .ok (v :: vs)
termination_by l _ => sizeOf l
decreasing_by
  all_goals simp_wf
  all_goals omega

/-- The entry loop of the generic `Value::Object` arm: keys copied literally,
values rendered. -/
def MapperProcessor.render_obj (m : MapperProcessor) :
    List (String × Json) → Json → Except AppError (List (String × Json))
  | [], _ => .ok []
  | (k, val) :: xs, context =>
    match m.render_value val context with
    | .error e => .error e
    | .ok v =>
      match m.render_obj xs context with
      | .error e => .error e
      | .ok vs => .ok ((k, v) :: vs)
termination_by l _ => sizeOf l
decreasing_by
  all_goals simp_wf
  all_goals omega

end

/-- `MapperProcessor::process`: render the template against the current body
and replace the body; everything else of the event is untouched. -/
def MapperProcessor.process (m : MapperProcessor) (event : PipelineEvent) :
    Except AppError (Option PipelineEvent) :=
  match m.render_value m.template event.body with
  | .error e => .error e
  | .ok new_body => .ok (some { event with body := new_body })

/-- C6: a template string node that after trimming is exactly one
`{{ <expr> }}` mustache pair with no pipe filter, whose inner expression is a
dotted path (not the `@this` special case) that resolves in the context,
renders to the raw JSON value at that path — objects, arrays, numbers,
booleans and null survive as such, with no stringification. -/
theorem mapper_single_expression_raw (m : MapperProcessor) (s : String)
    (context v : Json)
    (hstart : startsWithLit (strTrim s) "\x7b\x7b" = true)
    (hend : endsWithLit (strTrim s) "\x7d\x7d" = true)
    (hone : countMustache (strTrim s) = 1)
    (hthis : strTrim (innerOfMustache (strTrim s)) ≠ "@this")
    (hpipe : (strTrim (innerOfMustache (strTrim s))).data.contains '|' = false)
    (hres : extract_value_from_path (strTrim (innerOfMustache (strTrim s))) context
        = some v) :
    m.render_value (Json.str s) context = .ok v := by
  have hrs : m.render_string s context = .ok v := by
    unfold MapperProcessor.render_string
    simp [hstart, hend, hone, hthis, hres]
  simp only [MapperProcessor.render_value]
  exact hrs

/-- C6 witness: `"{{ a }}"` against a context whose `a` is the array `[7]`
returns that array itself. -/
theorem mapper_single_expression_raw_witness :
    MapperProcessor.render_value ⟨fun _ _ => .error "", fun _ => none, Json.null⟩
      (Json.str "\x7b\x7b a \x7d\x7d") (Json.obj [("a", Json.arr [Json.num (.int 7)])])
      = .ok (Json.arr [Json.num (.int 7)]) :=
  mapper_single_expression_raw _ _ _ _ (by decide) (by decide) (by decide)
    (by decide) (by decide) rfl

/-- C8: mapping with the identity template — the single string
`"{{ @this }}"` — returns the event unchanged: same body, id, event type,
primary-key fields and operation. -/
theorem mapper_identity_template (hb : String → Json → Except String String)
    (pj : String → Option Json) (event : PipelineEvent) :
    MapperProcessor.process ⟨hb, pj, Json.str "\x7b\x7b @this \x7d\x7d"⟩ event
      = .ok (some event) := by
  have hrs : MapperProcessor.render_string
      ⟨hb, pj, Json.str "\x7b\x7b @this \x7d\x7d"⟩
      "\x7b\x7b @this \x7d\x7d" event.body = .ok event.body := rfl
  unfold MapperProcessor.process
  simp only [MapperProcessor.render_value]
  rw [hrs]

/-! ## The pipeline executor (`src/pipeline/executor.rs`) -/

/-- A configured pipeline instance: processors (`dyn Processor::process`,
e.g. the filter's or mapper's `process` above) in declaration order, and sinks
(`dyn Sink::write`, an external effect whose outcome is all the executor
observes). -/
structure PipelineInstance where
  processors : List (PipelineEvent → Except AppError (Option PipelineEvent))
  sinks : List (PipelineEvent → Except AppError Unit)

/-- The processor loop of `process_event`: feed the event through the
processors sequentially; an error aborts the pipeline, `None` means the event
was filtered out. -/
def runProcessors : List (PipelineEvent → Except AppError (Option PipelineEvent))
    → PipelineEvent → Except AppError (Option PipelineEvent)
  | [], current => .ok (some current)
  | p :: ps, current =>
    match p current with
    | .error e => .error e
    | .ok none => .ok none
    | .ok (some nxt) => runProcessors ps nxt

/-- The sink loop of `process_event`: attempt every sink in order, recording
each outcome; a failure is logged and the loop continues. -/
def runSinks : List (PipelineEvent → Except AppError Unit) → PipelineEvent
    → List (Except AppError Unit)
  | [], _ => []
  | s :: ss, ev => s ev :: runSinks ss ev

/-- What one pipeline did with one event: aborted on a processor error
(logged by `run`), dropped by a filter, or delivered to the sinks with the
recorded per-sink outcomes. -/
inductive PipelineOutcome
  | errored (e : AppError)
  | filtered
  | delivered (final : PipelineEvent) (sink_results : List (Except AppError Unit))

/-- `PipelineExecutor::process_event` for a single pipeline, starting from a
private clone of the received event. -/
def process_event (pipeline : PipelineInstance) (event : PipelineEvent) :
    PipelineOutcome :=
  match runProcessors pipeline.processors event with
  | .error e => .errored e
  | .ok none => .filtered
  | .ok (some ev) => .delivered ev (runSinks pipeline.sinks ev)

/-- The per-event body of `PipelineExecutor::run`: every configured pipeline
processes the same received event, in configuration order; errors are logged,
never propagated to other pipelines. -/
def processAllPipelines (pipelines : List PipelineInstance)
    (event : PipelineEvent) : List PipelineOutcome :=
  pipelines.map (fun p => process_event p event)

/-- `runSinks` records one outcome per sink: no failure shortens the list. -/
theorem runSinks_length (sinks : List (PipelineEvent → Except AppError Unit))
    (ev : PipelineEvent) : (runSinks sinks ev).length = sinks.length := by
  induction sinks with
  | nil => rfl
  | cons s ss ih => simp [runSinks, ih]

/-- C9: pipelines and sinks are isolated.  The i-th pipeline's outcome is a
function of that pipeline and the ORIGINAL event alone — each pipeline starts
from a private clone, so a filter drop, processor error or sink failure in any
other pipeline cannot affect it; and within a delivered pipeline the k-th
sink's outcome is that sink applied to the processed event, whatever the
earlier sinks did — every sink is attempted. -/
theorem executor_isolation (pipelines : List PipelineInstance)
    (event : PipelineEvent) (i : Nat) (hi : i < pipelines.length) :
    (processAllPipelines pipelines event).get
        ⟨i, by simpa [processAllPipelines] using hi⟩
      = process_event (pipelines.get ⟨i, hi⟩) event
    ∧ ∀ (sinks : List (PipelineEvent → Except AppError Unit))
        (ev : PipelineEvent) (k : Nat) (hk : k < sinks.length),
        (runSinks sinks ev).get ⟨k, by simpa [runSinks_length] using hk⟩
          = (sinks.get ⟨k, hk⟩) ev := by
  constructor
  · simp [processAllPipelines]
  · intro sinks ev k hk
    induction sinks generalizing k with
    | nil => exact absurd hk (by simp)
    | cons s ss ih =>
      cases k with
      | zero => rfl
      | succ k2 => exact ih k2 (by simpa using hk)

/-- An event for the executor witnesses. -/
def execTestEvent : PipelineEvent :=
  PipelineEvent.new (Json.str "payload") "test_event" [] Operation.write

/-- C9 witness: with pipeline 0 failing in its processor and pipeline 1
delivering through a failing first sink, pipeline 1's outcome is computed from
the original event alone and both of its sinks are attempted. -/
theorem executor_isolation_witness :
    (processAllPipelines
        [⟨[fun _ => .error (.processing "boom")], []⟩,
         ⟨[], [fun _ => .error (.database "down"), fun _ => .ok ()]⟩]
        execTestEvent).get ⟨1, by decide⟩
      = process_event ⟨[], [fun _ => .error (.database "down"), fun _ => .ok ()]⟩
          execTestEvent
      ∧ (runSinks [fun _ => .error (.database "down"), fun _ => .ok ()]
            execTestEvent).get ⟨1, by decide⟩
        = .ok () :=
  ⟨(executor_isolation
      [⟨[fun _ => .error (.processing "boom")], []⟩,
       ⟨[], [fun _ => .error (.database "down"), fun _ => .ok ()]⟩]
      execTestEvent 1 (by decide)).1,
   (executor_isolation
      [⟨[fun _ => .error (.processing "boom")], []⟩,
       ⟨[], [fun _ => .error (.database "down"), fun _ => .ok ()]⟩]
      execTestEvent 1 (by decide)).2
     [fun _ => .error (.database "down"), fun _ => .ok ()] execTestEvent 1 (by decide)⟩
